import Mathlib

/-!
Verification of the XFileUnpacker CLI orchestrator against its specification.

The development shallowly embeds the CLI's progress-aggregation callback
(`progressCallback` in `src/cli/main_cli.cpp`), the orchestration `main`
routine with its three action executors (List, Test, Extract), and the
throttling contract of the progress reporter.  Machine integers (`qint64`,
`qint32`) are modelled as `Int`; C++ integer division (truncation toward
zero) is `Int.tdiv`.  Side effects (stdout/stderr lines, directory creation
and removal, handler invocations) are modelled as an explicit effect trace.
-/

namespace XFU

/-- One slot of the fixed progress table (`XBinary::PDRECORD`):
validity flag, current/total counters and a status text. -/
structure PDRecord where
  bIsValid : Bool
  nCurrent : Int
  nTotal : Int
  sStatus : String
deriving DecidableEq

/-- One iteration of the summation loop in `progressCallback`
(lines 304-314): a valid slot adds its counters to the running sums and,
when its status text is nonempty, appends it to the status list; an
invalid slot is skipped. -/
def pdStep (acc : Int × Int × List String) (r : PDRecord) : Int × Int × List String :=
  if r.bIsValid then
    (acc.1 + r.nCurrent, acc.2.1 + r.nTotal,
      if r.sStatus.isEmpty then acc.2.2 else acc.2.2 ++ [r.sStatus])
  else acc

/-- The summation loop of `progressCallback` over the whole slot table:
returns `(nTotalCurrent, nTotalAll, listStatuses)`. -/
def aggregate (recs : List PDRecord) : Int × Int × List String :=
  recs.foldl pdStep (0, 0, [])

/-- The joined status line `listStatuses.join("/")` from `progressCallback`. -/
def statusLine (recs : List PDRecord) : String :=
  String.intercalate "/" (aggregate recs).2.2

/-- The rendering decision of `progressCallback` (lines 316-331):
when `nTotalAll > 0` it emits `(nPercent, nTotalCurrent, nTotalAll, status)`
with `nPercent = (nTotalCurrent * 100) / nTotalAll` in C++ truncating
division; otherwise nothing is emitted. -/
def progressOutput (recs : List PDRecord) : Option (Int × Int × Int × String) :=
  let nTotalCurrent := (aggregate recs).1
  let nTotalAll := (aggregate recs).2.1
  if 0 < nTotalAll then
    some ((nTotalCurrent * 100).tdiv nTotalAll, nTotalCurrent, nTotalAll, statusLine recs)
  else none

/-- Sum of `nCurrent` over the valid slots, written as a direct recursion. -/
def curSumR : List PDRecord → Int
  | [] => 0
  | r :: rs => (if r.bIsValid then r.nCurrent else 0) + curSumR rs

/-- Sum of `nTotal` over the valid slots, written as a direct recursion. -/
def totSumR : List PDRecord → Int
  | [] => 0
  | r :: rs => (if r.bIsValid then r.nTotal else 0) + totSumR rs

/-- Nonempty status strings of the valid slots in slot order. -/
def statusListR : List PDRecord → List String
  | [] => []
  | r :: rs => (if r.bIsValid && !r.sStatus.isEmpty then [r.sStatus] else []) ++ statusListR rs

/-- `QFileInfo::fileName`-style last path component: the characters after
the last `/` (the whole string when it has no `/`).  Paths are taken as
already absolute, matching the claims' usage. -/
def fileNameOf (s : String) : String :=
  String.mk ((s.data.reverse.takeWhile fun c => c != '/').reverse)

/-- `QFileInfo::absolutePath`-style directory part: the characters before
the last `/`, excluding it. -/
def dirOf (s : String) : String :=
  String.mk (((s.data.reverse.dropWhile fun c => c != '/').drop 1).reverse)

/-- `QFileInfo::completeBaseName`: the file-name component up to, but not
including, the last `.`; the whole file name when it contains no dot. -/
def completeBaseName (s : String) : String :=
  let name := (fileNameOf s).data
  if name.contains '.' then
    String.mk (((name.reverse.dropWhile fun c => c != '.').drop 1).reverse)
  else String.mk name

/-- Observable side effects of one CLI invocation: stdout lines, stderr
lines (always `Error: `-prefixed by `printError`), help output, directory
creation/removal, handler extraction calls, and a marker recording which
action executor ran. -/
inductive Effect where
  | out (s : String)
  | err (s : String)
  | showHelp
  | progressTest
  | mkpath (d : String)
  | removeDir (d : String)
  | unpack (dest : String)
  | listAction
  | testAction
  | extractAction
deriving DecidableEq

/-- `printError`: writes `"Error: " ++ message` to standard error. -/
def errLine (s : String) : Effect :=
  Effect.err ("Error: " ++ s)

/-- Parsed command line: the `--test-progress`, `--list`, `--test`,
`--extract` flags, the positional arguments and the `--output` value
(the empty string when the option is absent, as `parser.value` yields). -/
structure Args where
  testProgress : Bool
  positional : List String
  listSet : Bool
  testSet : Bool
  extractSet : Bool
  outputDir : String

/-- Abstract environment resolving the external calls `main` makes: file
existence and kind, openability, whether `XFormats::getClass` yields a
handler, the informational file size and type string, the number of
enumerated records, the result of `unpackDeviceToFolder`, the number of
top-level files found in the temporary directory after a successful unpack,
and the temp-path/clock values used to name the Test directory. -/
structure Env where
  fileExists : Bool
  isFile : Bool
  openOk : Bool
  handlerOk : Bool
  fileSize : Nat
  ftString : String
  recordCount : Nat
  unpackOk : Bool
  topFiles : Nat
  tempPath : String
  nowMs : Nat

/-- The Test executor's temporary directory name:
`QDir::tempPath() + "/" + "xfileunpacker_test_" + currentMSecsSinceEpoch`. -/
def tempDirName (e : Env) : String :=
  e.tempPath ++ "/" ++ "xfileunpacker_test_" ++ toString e.nowMs

/-- The Test action executor (lines 484-511): creates the temporary
directory, extracts into it, counts top-level files only when extraction
succeeded, removes the directory unconditionally, then reports PASSED
exactly when extraction succeeded and at least one file was counted;
otherwise it reports FAILED with exit code 1. -/
def testBranch (e : Env) : Nat × List Effect :=
  let sTempDir := tempDirName e
  let nExtractedFiles : Nat := if e.unpackOk then e.topFiles else 0
  let pre := [Effect.testAction, Effect.out "Testing archive integrity...",
    Effect.mkpath sTempDir,
    Effect.out ("Extracting to temporary location: " ++ sTempDir),
    Effect.unpack sTempDir,
    Effect.removeDir sTempDir]
  if e.unpackOk && decide (0 < nExtractedFiles) then
    (0, pre ++ [Effect.out ("Test PASSED: Successfully extracted " ++
      toString nExtractedFiles ++ " file(s)")])
  else (1, pre ++ [errLine "Test FAILED: Could not extract archive"])

/-- The Extract executor's output root: the `--output` value, or the input
file's own directory when the option was not given. -/
def extractOutputDir (a : Args) (input : String) : String :=
  if a.outputDir.isEmpty then dirOf input else a.outputDir

/-- The Extract executor's destination:
`sOutputDir + QDir::separator() + fileInfo.completeBaseName()`. -/
def extractDest (a : Args) (input : String) : String :=
  extractOutputDir a input ++ "/" ++ completeBaseName input

/-- The Extract action executor (lines 512-535): computes the destination,
creates it with `mkpath`, extracts into it, and on handler failure reports
an error with exit code 1. -/
def extractBranch (a : Args) (e : Env) (input : String) : Nat × List Effect :=
  let pre := [Effect.extractAction,
    Effect.out ("Extracting to: " ++ extractOutputDir a input),
    Effect.mkpath (extractDest a input),
    Effect.out "Unpacking archive...",
    Effect.unpack (extractDest a input)]
  if e.unpackOk then
    (0, pre ++ [Effect.out ("Extracted " ++ toString e.recordCount ++ " file(s) successfully")])
  else (1, pre ++ [errLine "Failed to extract archive"])

/-- Marker telling the three action executors apart in an effect trace. -/
def isActionEffect : Effect → Bool
  | Effect.listAction => true
  | Effect.testAction => true
  | Effect.extractAction => true
  | _ => false

/-- The orchestrating `main` routine (lines 361-543): validates the input,
resolves the format, enumerates records, and dispatches to exactly one
action executor, returning the process exit code and the effect trace. -/
def mainRun (a : Args) (e : Env) : Nat × List Effect :=
  if a.testProgress then (0, [Effect.progressTest])
  else if a.positional.isEmpty then (1, [errLine "No input file specified", Effect.showHelp])
  else
    let input := a.positional.headD ""
    if !e.fileExists then (1, [errLine ("File not found: " ++ input)])
    else if !e.isFile then (1, [errLine ("Not a file: " ++ input)])
    else
      let bExtract := a.extractSet || (!a.listSet && !a.testSet)
      let eff0 := [Effect.out ("Processing file: " ++ input),
        Effect.out ("File size: " ++ toString e.fileSize ++ " bytes")]
      if !e.openOk then (1, eff0 ++ [errLine ("Cannot open file: " ++ input)])
      else
        let eff1 := eff0 ++ [Effect.out ("File type: " ++ e.ftString)]
        if !e.handlerOk then
          (1, eff1 ++ [errLine ("Not an archive or unsupported format: " ++ e.ftString)])
        else
          let eff2 := eff1 ++ [Effect.out "",
            Effect.out ("Number of records: " ++ toString e.recordCount)]
          if e.recordCount = 0 then (1, eff2 ++ [errLine "Archive contains no records"])
          else if a.listSet then
            (0, eff2 ++ [Effect.listAction, Effect.out "Operation completed successfully"])
          else if a.testSet then
            let r := testBranch e
            if r.1 = 0 then (0, eff2 ++ r.2 ++ [Effect.out "Operation completed successfully"])
            else (1, eff2 ++ r.2)
          else if bExtract then
            let r := extractBranch a e input
            if r.1 = 0 then (0, eff2 ++ r.2 ++ [Effect.out "Operation completed successfully"])
            else (1, eff2 ++ r.2)
          else (0, eff2 ++ [Effect.out "Operation completed successfully"])

/-- Modelled from the spec: the throttling of the progress reporter
(§4.1 step 4) is not implemented inside `src/` — `main` only initializes
`nLastCallbackTime = 0`; the invocation site lives in the XBinary
dependency.  Per the spec, an update at time `now` with throttle state
`last` is skipped when `now - last < minInterval`, except that a final
update is never skipped; an invoked callback updates `lastCallbackTime`.
`runThrottle m last events` replays a list of `(time, isFinal)` updates and
returns the updates whose callback actually fired. -/
def runThrottle (m : Nat) : Nat → List (Nat × Bool) → List (Nat × Bool)
  | _, [] => []
  | last, e :: es =>
    if e.2 || decide (m ≤ e.1 - last) then e :: runThrottle m e.1 es
    else runThrottle m last es

/-- Update times are nondecreasing and bounded below by the initial
throttle timestamp. -/
def timesMonoB : Nat → List (Nat × Bool) → Bool
  | _, [] => true
  | t, e :: es => decide (t ≤ e.1) && timesMonoB e.1 es

/-- Each fired non-final update lies at least `m` after the previous fired
update (invariant of `runThrottle`'s output). -/
def gapsB (m : Nat) : Nat → List (Nat × Bool) → Bool
  | _, [] => true
  | last, e :: es => (e.2 || decide (last + m ≤ e.1)) && gapsB m e.1 es

/-- Consecutive elements are at least `m` apart. -/
def chainGapB (m : Nat) : List Nat → Bool
  | [] => true
  | [_] => true
  | x :: y :: rest => decide (x + m ≤ y) && chainGapB m (y :: rest)

/-- The non-final updates of a trace. -/
def nonFinalFires (l : List (Nat × Bool)) : List (Nat × Bool) :=
  l.filter fun e => !e.2

/-- How many updates of `l` fall in the 1-second window `[t, t + 1000)`. -/
def windowCount (t : Nat) (l : List (Nat × Bool)) : Nat :=
  (l.filter fun e => decide (t ≤ e.1) && decide (e.1 < t + 1000)).length

/-- Non-final updates every 30 ms from 30 to 1020, then a final update at
1020: with `minInterval = 30` every one of them fires. -/
def c3Trace : List (Nat × Bool) :=
  [(30, false), (60, false), (90, false), (120, false), (150, false), (180, false),
   (210, false), (240, false), (270, false), (300, false), (330, false), (360, false),
   (390, false), (420, false), (450, false), (480, false), (510, false), (540, false),
   (570, false), (600, false), (630, false), (660, false), (690, false), (720, false),
   (750, false), (780, false), (810, false), (840, false), (870, false), (900, false),
   (930, false), (960, false), (990, false), (1020, false), (1020, true)]

theorem foldl_pdStep_eq (recs : List PDRecord) : ∀ acc : Int × Int × List String,
    recs.foldl pdStep acc = (acc.1 + curSumR recs, acc.2.1 + totSumR recs, acc.2.2 ++ statusListR recs) := by
  induction recs with
  | nil => intro acc; simp [curSumR, totSumR, statusListR]
  | cons r rs ih =>
    intro acc
    by_cases hv : r.bIsValid
    · by_cases hs : r.sStatus.isEmpty
      · simp [pdStep, hv, hs, ih, curSumR, totSumR, statusListR, add_assoc]
      · simp [pdStep, hv, hs, ih, curSumR, totSumR, statusListR, add_assoc]
    · simp [pdStep, hv, ih, curSumR, totSumR, statusListR]

theorem aggregate_eq (recs : List PDRecord) :
    aggregate recs = (curSumR recs, totSumR recs, statusListR recs) := by
  simp [aggregate, foldl_pdStep_eq]

theorem curSumR_append (l1 l2 : List PDRecord) :
    curSumR (l1 ++ l2) = curSumR l1 + curSumR l2 := by
  induction l1 with
  | nil => simp [curSumR]
  | cons r rs ih => simp [curSumR, ih, add_assoc]

theorem totSumR_append (l1 l2 : List PDRecord) :
    totSumR (l1 ++ l2) = totSumR l1 + totSumR l2 := by
  induction l1 with
  | nil => simp [totSumR]
  | cons r rs ih => simp [totSumR, ih, add_assoc]

theorem statusListR_append (l1 l2 : List PDRecord) :
    statusListR (l1 ++ l2) = statusListR l1 ++ statusListR l2 := by
  induction l1 with
  | nil => simp [statusListR]
  | cons r rs ih => simp [statusListR, ih]

theorem totSumR_all_zero (l : List PDRecord)
    (h : ∀ s ∈ l, s.bIsValid = true → s.nTotal = 0) : totSumR l = 0 := by
  induction l with
  | nil => rfl
  | cons r rs ih =>
    have hr : (if r.bIsValid then r.nTotal else 0) = 0 := by
      by_cases hv : r.bIsValid
      · simp [hv, h r (by simp) hv]
      · simp [hv]
    simp [totSumR, hr, ih fun s hs => h s (by simp [hs])]

theorem curSumR_filter (l : List PDRecord) :
    curSumR (l.filter fun x => x.bIsValid) = curSumR l := by
  induction l with
  | nil => rfl
  | cons r rs ih =>
    by_cases hv : r.bIsValid
    · simp [List.filter, hv, curSumR, ih]
    · simp [List.filter, hv, curSumR, ih]

theorem totSumR_filter (l : List PDRecord) :
    totSumR (l.filter fun x => x.bIsValid) = totSumR l := by
  induction l with
  | nil => rfl
  | cons r rs ih =>
    by_cases hv : r.bIsValid
    · simp [List.filter, hv, totSumR, ih]
    · simp [List.filter, hv, totSumR, ih]

theorem statusListR_filter (l : List PDRecord) :
    statusListR (l.filter fun x => x.bIsValid) = statusListR l := by
  induction l with
  | nil => rfl
  | cons r rs ih =>
    by_cases hv : r.bIsValid
    · simp [List.filter, hv, statusListR, ih]
    · simp [List.filter, hv, statusListR, ih]

theorem aggregate_filter (l : List PDRecord) :
    aggregate (l.filter fun x => x.bIsValid) = aggregate l := by
  simp [aggregate_eq, curSumR_filter, totSumR_filter, statusListR_filter]

theorem statusListR_eq_map_filter (l : List PDRecord) :
    statusListR l = ((l.filter fun r => r.bIsValid).map fun r => r.sStatus).filter
      fun s => !s.isEmpty := by
  induction l with
  | nil => rfl
  | cons r rs ih =>
    by_cases hv : r.bIsValid
    · by_cases hs : r.sStatus.isEmpty
      · simp [statusListR, List.filter, hv, hs, ih]
      · simp [statusListR, List.filter, hv, hs, ih]
    · simp [statusListR, List.filter, hv, ih]

theorem takeWhile_all {α} (p : α → Bool) (l : List α) (h : ∀ x ∈ l, p x = true) :
    l.takeWhile p = l := by
  induction l with
  | nil => rfl
  | cons x xs ih =>
    simp [List.takeWhile, h x (by simp), ih fun y hy => h y (by simp [hy])]

theorem takeWhile_append_all {α} (p : α → Bool) (xs ys : List α) (y : α)
    (hx : ∀ x ∈ xs, p x = true) (hy : p y = false) :
    (xs ++ y :: ys).takeWhile p = xs := by
  induction xs with
  | nil => simp [List.takeWhile, hy]
  | cons x l ih =>
    simp [List.takeWhile, hx x (by simp), ih fun z hz => hx z (by simp [hz])]

theorem dropWhile_append_all {α} (p : α → Bool) (xs ys : List α) (y : α)
    (hx : ∀ x ∈ xs, p x = true) (hy : p y = false) :
    (xs ++ y :: ys).dropWhile p = y :: ys := by
  induction xs with
  | nil => simp [List.dropWhile, hy]
  | cons x l ih =>
    simp [List.dropWhile, hx x (by simp), ih fun z hz => hx z (by simp [hz])]

theorem data_concat (d n : String) :
    (d ++ "/" ++ n).data = d.data ++ '/' :: n.data := by
  simp [String.data_append]

theorem fileNameOf_concat (d n : String) (hn : ∀ c ∈ n.data, c ≠ '/') :
    fileNameOf (d ++ "/" ++ n) = n := by
  have hrev : (d ++ "/" ++ n).data.reverse = n.data.reverse ++ '/' :: d.data.reverse := by
    simp [data_concat]
  rw [fileNameOf, hrev, takeWhile_append_all _ _ _ _
    (fun x hx => by simp [List.mem_reverse] at hx; simp [hn x hx]) (by simp)]
  simp

theorem dirOf_concat (d n : String) (hn : ∀ c ∈ n.data, c ≠ '/') :
    dirOf (d ++ "/" ++ n) = d := by
  have hrev : (d ++ "/" ++ n).data.reverse = n.data.reverse ++ '/' :: d.data.reverse := by
    simp [data_concat]
  rw [dirOf, hrev, dropWhile_append_all _ _ _ _
    (fun x hx => by simp [List.mem_reverse] at hx; simp [hn x hx]) (by simp)]
  simp

theorem fileNameOf_no_slash (n : String) (hn : ∀ c ∈ n.data, c ≠ '/') :
    fileNameOf n = n := by
  rw [fileNameOf, takeWhile_all _ _
    (fun x hx => by simp [List.mem_reverse] at hx; simp [hn x hx])]
  simp

theorem completeBaseName_concat (d n : String) (hn : ∀ c ∈ n.data, c ≠ '/') :
    completeBaseName (d ++ "/" ++ n) = completeBaseName n := by
  rw [completeBaseName, completeBaseName, fileNameOf_concat d n hn, fileNameOf_no_slash n hn]

/-- C1 counterexample: the reported percentage is not clamped to [0, 100].
A single valid slot with `current = 3`, `total = 2` makes the callback
report 150%. -/
theorem c1_counterexample :
    progressOutput [{ bIsValid := true, nCurrent := 3, nTotal := 2, sStatus := "" }] =
      some (150, 3, 2, "") ∧ ¬ (150 : Int) ≤ 100 :=
  ⟨rfl, by decide⟩

/-- C1 (amended): when the denominator `totalSum` over the valid slots is
positive and `0 ≤ currentSum ≤ totalSum`, the percentage reported by the
aggregation callback equals `floor(100 * currentSum / totalSum)` and lies in
[0, 100].  No clamping is performed by the code: outside
`currentSum ≤ totalSum` the reported value exceeds 100
(see `c1_counterexample`). -/
theorem c1_amended (recs : List PDRecord)
    (h0 : 0 ≤ (aggregate recs).1)
    (h1 : 0 < (aggregate recs).2.1)
    (h2 : (aggregate recs).1 ≤ (aggregate recs).2.1) :
    progressOutput recs =
      some (100 * (aggregate recs).1 / (aggregate recs).2.1, (aggregate recs).1,
        (aggregate recs).2.1, statusLine recs)
  ∧ 0 ≤ 100 * (aggregate recs).1 / (aggregate recs).2.1
  ∧ 100 * (aggregate recs).1 / (aggregate recs).2.1 ≤ 100 := by
  have hdiv : ((aggregate recs).1 * 100).tdiv (aggregate recs).2.1 =
      100 * (aggregate recs).1 / (aggregate recs).2.1 := by
    rw [Int.tdiv_eq_ediv (by positivity) (le_of_lt h1), mul_comm]
  refine ⟨?_, ?_, ?_⟩
  · simp only [progressOutput, if_pos h1, hdiv]
  · exact Int.ediv_nonneg (by positivity) (le_of_lt h1)
  · calc 100 * (aggregate recs).1 / (aggregate recs).2.1
        ≤ (aggregate recs).2.1 * 100 / (aggregate recs).2.1 :=
          Int.ediv_le_ediv h1 (by nlinarith)
      _ = 100 := Int.mul_ediv_cancel_left 100 (ne_of_gt h1)

/-- Witness for `c1_amended` at a concrete state: one valid slot with
`current = 1`, `total = 2` yields 50%. -/
theorem c1_witness :
    (0 ≤ (aggregate [{ bIsValid := true, nCurrent := 1, nTotal := 2, sStatus := "s" }]).1
      ∧ 0 < (aggregate [{ bIsValid := true, nCurrent := 1, nTotal := 2, sStatus := "s" }]).2.1
      ∧ (aggregate [{ bIsValid := true, nCurrent := 1, nTotal := 2, sStatus := "s" }]).1
          ≤ (aggregate [{ bIsValid := true, nCurrent := 1, nTotal := 2, sStatus := "s" }]).2.1)
  ∧ (progressOutput [{ bIsValid := true, nCurrent := 1, nTotal := 2, sStatus := "s" }] =
      some (100 * (aggregate [{ bIsValid := true, nCurrent := 1, nTotal := 2, sStatus := "s" }]).1
              / (aggregate [{ bIsValid := true, nCurrent := 1, nTotal := 2, sStatus := "s" }]).2.1,
        (aggregate [{ bIsValid := true, nCurrent := 1, nTotal := 2, sStatus := "s" }]).1,
        (aggregate [{ bIsValid := true, nCurrent := 1, nTotal := 2, sStatus := "s" }]).2.1,
        statusLine [{ bIsValid := true, nCurrent := 1, nTotal := 2, sStatus := "s" }])
    ∧ 0 ≤ 100 * (aggregate [{ bIsValid := true, nCurrent := 1, nTotal := 2, sStatus := "s" }]).1
            / (aggregate [{ bIsValid := true, nCurrent := 1, nTotal := 2, sStatus := "s" }]).2.1
    ∧ 100 * (aggregate [{ bIsValid := true, nCurrent := 1, nTotal := 2, sStatus := "s" }]).1
            / (aggregate [{ bIsValid := true, nCurrent := 1, nTotal := 2, sStatus := "s" }]).2.1
        ≤ 100) :=
  ⟨⟨by decide, by decide, by decide⟩,
    c1_amended [{ bIsValid := true, nCurrent := 1, nTotal := 2, sStatus := "s" }]
      (by decide) (by decide) (by decide)⟩

/-- C2: a valid slot with `total = 0` contributes its `current` to the
aggregation numerator and nothing to the denominator; when the denominator
over all valid slots is 0 — in particular when every valid slot has
`total = 0` — the callback emits nothing, so the division guarded by
`nTotalAll > 0` is never reached. -/
theorem c2_zero_total (pre post : List PDRecord) (r : PDRecord)
    (hv : r.bIsValid = true) (ht : r.nTotal = 0) :
    (aggregate (pre ++ r :: post)).1 = (aggregate (pre ++ post)).1 + r.nCurrent
  ∧ (aggregate (pre ++ r :: post)).2.1 = (aggregate (pre ++ post)).2.1
  ∧ ((aggregate (pre ++ r :: post)).2.1 = 0 → progressOutput (pre ++ r :: post) = none)
  ∧ ((∀ s ∈ pre ++ r :: post, s.bIsValid = true → s.nTotal = 0) →
       progressOutput (pre ++ r :: post) = none) := by
  refine ⟨?_, ?_, ?_, ?_⟩
  · simp [aggregate_eq, curSumR_append, curSumR, hv]
    ring
  · simp [aggregate_eq, totSumR_append, totSumR, hv, ht]
  · intro h0
    simp only [progressOutput, h0]
    rfl
  · intro hall
    have h0 : (aggregate (pre ++ r :: post)).2.1 = 0 := by
      simp [aggregate_eq, totSumR_all_zero _ hall]
    simp only [progressOutput, h0]
    rfl

/-- Witness for `c2_zero_total`: a single valid slot with `current = 5`,
`total = 0` yields numerator 5, denominator 0 and no emitted percentage. -/
theorem c2_witness :
    ((PDRecord.mk true 5 0 "s").bIsValid = true ∧ (PDRecord.mk true 5 0 "s").nTotal = 0)
  ∧ ((aggregate ([] ++ PDRecord.mk true 5 0 "s" :: [])).1 =
        (aggregate ([] ++ [])).1 + (PDRecord.mk true 5 0 "s").nCurrent
    ∧ (aggregate ([] ++ PDRecord.mk true 5 0 "s" :: [])).2.1 = (aggregate ([] ++ [])).2.1
    ∧ ((aggregate ([] ++ PDRecord.mk true 5 0 "s" :: [])).2.1 = 0 →
        progressOutput ([] ++ PDRecord.mk true 5 0 "s" :: []) = none)
    ∧ ((∀ s ∈ [] ++ PDRecord.mk true 5 0 "s" :: [], s.bIsValid = true → s.nTotal = 0) →
        progressOutput ([] ++ PDRecord.mk true 5 0 "s" :: []) = none)) :=
  ⟨⟨by decide, by decide⟩, c2_zero_total [] [] (PDRecord.mk true 5 0 "s") (by decide) (by decide)⟩

/-- C4: the aggregation sums counters and collects statuses only over slots
whose `bIsValid` flag is true.  An invalid slot contributes nothing to the
numerator, denominator or status list, regardless of its counter and status
values: deleting it leaves the whole aggregate unchanged, and the aggregate
of any table equals the aggregate of its valid slots. -/
theorem c4_invalid_ignored (pre post : List PDRecord) (r : PDRecord)
    (h : r.bIsValid = false) :
    aggregate (pre ++ r :: post) = aggregate (pre ++ post)
  ∧ aggregate (pre ++ r :: post) =
      aggregate ((pre ++ r :: post).filter fun x => x.bIsValid) := by
  constructor
  · simp [aggregate_eq, curSumR_append, totSumR_append, statusListR_append,
      curSumR, totSumR, statusListR, h]
  · exact (aggregate_filter _).symm

/-- Witness for `c4_invalid_ignored`: an invalid slot with nonzero counters
and a nonempty status between two valid slots changes nothing. -/
theorem c4_witness :
    (PDRecord.mk false 7 9 "junk").bIsValid = false
  ∧ (aggregate ([PDRecord.mk true 1 2 "a"] ++ PDRecord.mk false 7 9 "junk" ::
        [PDRecord.mk true 3 4 "b"]) =
      aggregate ([PDRecord.mk true 1 2 "a"] ++ [PDRecord.mk true 3 4 "b"])
    ∧ aggregate ([PDRecord.mk true 1 2 "a"] ++ PDRecord.mk false 7 9 "junk" ::
        [PDRecord.mk true 3 4 "b"]) =
      aggregate (([PDRecord.mk true 1 2 "a"] ++ PDRecord.mk false 7 9 "junk" ::
        [PDRecord.mk true 3 4 "b"]).filter fun x => x.bIsValid)) :=
  ⟨by decide, c4_invalid_ignored [PDRecord.mk true 1 2 "a"] [PDRecord.mk true 3 4 "b"]
    (PDRecord.mk false 7 9 "junk") (by decide)⟩

/-- C5: the aggregated status line equals the status strings of the valid
slots taken in slot-index order, with empty strings skipped, joined with
"/"; being a function of the slot table, it is deterministic for a fixed
pattern of valid slots. -/
theorem c5_status_line (recs : List PDRecord) :
    statusLine recs =
      String.intercalate "/" (((recs.filter fun r => r.bIsValid).map fun r => r.sStatus).filter
        fun s => !s.isEmpty) := by
  simp [statusLine, aggregate_eq, statusListR_eq_map_filter]

/-- C7: for an Extract invocation with no `--output` given, the destination
is the input file's own directory plus a subdirectory named after the input
file's base name, and the Extract executor creates it with `mkpath`.
(The model treats the input path as absolute, `d ++ "/" ++ n` with `n` the
file name.) -/
theorem c7_default_destination (a : Args) (e : Env) (d n : String)
    (hout : a.outputDir = "") (_hd : d ≠ "") (hn : ∀ c ∈ n.data, c ≠ '/') :
    extractDest a (d ++ "/" ++ n) = d ++ "/" ++ completeBaseName n
  ∧ Effect.mkpath (extractDest a (d ++ "/" ++ n)) ∈ (extractBranch a e (d ++ "/" ++ n)).2 := by
  constructor
  · rw [extractDest, extractOutputDir, hout]
    simp [String.isEmpty, completeBaseName_concat d n hn, dirOf_concat d n hn]
  · cases hu : e.unpackOk <;> simp [extractBranch, hu]

/-- Witness for `c7_default_destination`: input `/a/b/archive.zip` with no
`--output` extracts into `/a/b/archive`. -/
theorem c7_witness :
    ((Args.mk false ["/a/b/archive.zip"] false false false "").outputDir = ""
      ∧ "/a/b" ≠ "" ∧ (∀ c ∈ "archive.zip".data, c ≠ '/'))
  ∧ (extractDest (Args.mk false ["/a/b/archive.zip"] false false false "")
        ("/a/b" ++ "/" ++ "archive.zip") = "/a/b" ++ "/" ++ completeBaseName "archive.zip"
    ∧ Effect.mkpath (extractDest (Args.mk false ["/a/b/archive.zip"] false false false "")
        ("/a/b" ++ "/" ++ "archive.zip")) ∈
        (extractBranch (Args.mk false ["/a/b/archive.zip"] false false false "")
          (Env.mk true true true true 0 "zip" 3 true 1 "/tmp" 0) ("/a/b" ++ "/" ++ "archive.zip")).2)
  ∧ extractDest (Args.mk false ["/a/b/archive.zip"] false false false "") "/a/b/archive.zip" =
      "/a/b/archive" :=
  ⟨⟨by decide, by decide, by decide⟩,
    c7_default_destination (Args.mk false ["/a/b/archive.zip"] false false false "")
      (Env.mk true true true true 0 "zip" 3 true 1 "/tmp" 0) "/a/b" "archive.zip"
      (by decide) (by decide) (by decide),
    by decide⟩

/-- C8: invoking with an existing positional argument whose path does not
exist prints exactly the line `Error: File not found: <path>` to standard
error, exits with code 1, and creates no directories. -/
theorem c8_file_not_found (a : Args) (e : Env) (input : String) (rest : List String)
    (h1 : a.testProgress = false) (h2 : a.positional = input :: rest)
    (h3 : e.fileExists = false) :
    mainRun a e = (1, [Effect.err ("Error: File not found: " ++ input)])
  ∧ ∀ dpath, Effect.mkpath dpath ∉ (mainRun a e).2 := by
  have hmain : mainRun a e = (1, [errLine ("File not found: " ++ input)]) := by
    simp [mainRun, h1, h2, h3]
  have hstr : errLine ("File not found: " ++ input) =
      Effect.err ("Error: File not found: " ++ input) := by
    rw [errLine, ← String.append_assoc]
    rfl
  constructor
  · rw [hmain, hstr]
  · intro dpath
    rw [hmain]
    simp [errLine]

/-- Witness for `c8_file_not_found` at a concrete invocation on
`/no/such.zip`. -/
theorem c8_witness :
    ((Args.mk false ["/no/such.zip"] false false false "").testProgress = false
      ∧ (Args.mk false ["/no/such.zip"] false false false "").positional = "/no/such.zip" :: []
      ∧ (Env.mk false false false false 0 "" 0 false 0 "" 0).fileExists = false)
  ∧ (mainRun (Args.mk false ["/no/such.zip"] false false false "")
        (Env.mk false false false false 0 "" 0 false 0 "" 0) =
        (1, [Effect.err ("Error: File not found: " ++ "/no/such.zip")])
    ∧ ∀ dpath, Effect.mkpath dpath ∉
        (mainRun (Args.mk false ["/no/such.zip"] false false false "")
          (Env.mk false false false false 0 "" 0 false 0 "" 0)).2) :=
  ⟨⟨by decide, by decide, by decide⟩,
    c8_file_not_found (Args.mk false ["/no/such.zip"] false false false "")
      (Env.mk false false false false 0 "" 0 false 0 "" 0) "/no/such.zip" []
      (by decide) (by decide) (by decide)⟩

/-- C6: on the Test path the temporary directory is removed unconditionally;
the run succeeds (exit code 0) exactly when the handler reported success and
at least one top-level file was produced, printing the PASSED line; when the
handler reports success but zero files were written, Test reports FAILED
with exit code 1. -/
theorem c6_test_action (a : Args) (e : Env) (input : String) (rest : List String)
    (h1 : a.testProgress = false) (h2 : a.positional = input :: rest)
    (h3 : e.fileExists = true) (h4 : e.isFile = true) (h5 : e.openOk = true)
    (h6 : e.handlerOk = true) (h7 : e.recordCount ≠ 0)
    (h8 : a.listSet = false) (h9 : a.testSet = true) :
    Effect.removeDir (tempDirName e) ∈ (mainRun a e).2
  ∧ ((mainRun a e).1 = 0 ↔ e.unpackOk = true ∧ 0 < e.topFiles)
  ∧ (e.unpackOk = true → 0 < e.topFiles →
      Effect.out ("Test PASSED: Successfully extracted " ++ toString e.topFiles ++ " file(s)")
        ∈ (mainRun a e).2)
  ∧ (e.unpackOk = true → e.topFiles = 0 →
      (mainRun a e).1 = 1 ∧ errLine "Test FAILED: Could not extract archive" ∈ (mainRun a e).2) := by
  cases hu : e.unpackOk <;> rcases Nat.eq_zero_or_pos e.topFiles with hf | hf <;>
    simp [mainRun, testBranch, h1, h2, h3, h4, h5, h6, h7, h8, h9, hu, hf,
      Nat.pos_iff_ne_zero] <;> omega

/-- Witness for `c6_test_action`: a Test run whose handler reports success
but produces zero files fails with exit code 1 and still removes the
temporary directory. -/
theorem c6_witness :
    ((Args.mk false ["/a/b/x.zip"] false true false "").testProgress = false
      ∧ (Args.mk false ["/a/b/x.zip"] false true false "").positional = "/a/b/x.zip" :: []
      ∧ (Env.mk true true true true 9 "zip" 3 true 0 "/tmp" 42).fileExists = true
      ∧ (Env.mk true true true true 9 "zip" 3 true 0 "/tmp" 42).isFile = true
      ∧ (Env.mk true true true true 9 "zip" 3 true 0 "/tmp" 42).openOk = true
      ∧ (Env.mk true true true true 9 "zip" 3 true 0 "/tmp" 42).handlerOk = true
      ∧ (Env.mk true true true true 9 "zip" 3 true 0 "/tmp" 42).recordCount ≠ 0
      ∧ (Args.mk false ["/a/b/x.zip"] false true false "").listSet = false
      ∧ (Args.mk false ["/a/b/x.zip"] false true false "").testSet = true)
  ∧ (Effect.removeDir (tempDirName (Env.mk true true true true 9 "zip" 3 true 0 "/tmp" 42)) ∈
      (mainRun (Args.mk false ["/a/b/x.zip"] false true false "")
        (Env.mk true true true true 9 "zip" 3 true 0 "/tmp" 42)).2
    ∧ ((mainRun (Args.mk false ["/a/b/x.zip"] false true false "")
          (Env.mk true true true true 9 "zip" 3 true 0 "/tmp" 42)).1 = 0 ↔
        (Env.mk true true true true 9 "zip" 3 true 0 "/tmp" 42).unpackOk = true
          ∧ 0 < (Env.mk true true true true 9 "zip" 3 true 0 "/tmp" 42).topFiles)
    ∧ ((Env.mk true true true true 9 "zip" 3 true 0 "/tmp" 42).unpackOk = true →
        0 < (Env.mk true true true true 9 "zip" 3 true 0 "/tmp" 42).topFiles →
        Effect.out ("Test PASSED: Successfully extracted " ++
          toString (Env.mk true true true true 9 "zip" 3 true 0 "/tmp" 42).topFiles ++ " file(s)") ∈
          (mainRun (Args.mk false ["/a/b/x.zip"] false true false "")
            (Env.mk true true true true 9 "zip" 3 true 0 "/tmp" 42)).2)
    ∧ ((Env.mk true true true true 9 "zip" 3 true 0 "/tmp" 42).unpackOk = true →
        (Env.mk true true true true 9 "zip" 3 true 0 "/tmp" 42).topFiles = 0 →
        (mainRun (Args.mk false ["/a/b/x.zip"] false true false "")
          (Env.mk true true true true 9 "zip" 3 true 0 "/tmp" 42)).1 = 1
        ∧ errLine "Test FAILED: Could not extract archive" ∈
          (mainRun (Args.mk false ["/a/b/x.zip"] false true false "")
            (Env.mk true true true true 9 "zip" 3 true 0 "/tmp" 42)).2)) :=
  ⟨⟨by decide, by decide, by decide, by decide, by decide, by decide, by decide, by decide,
    by decide⟩,
    c6_test_action (Args.mk false ["/a/b/x.zip"] false true false "")
      (Env.mk true true true true 9 "zip" 3 true 0 "/tmp" 42) "/a/b/x.zip" []
      (by decide) (by decide) (by decide) (by decide) (by decide) (by decide) (by decide)
      (by decide) (by decide)⟩

/-- C9: when record enumeration returns zero records, the run fails with
exit code 1 after printing an error line to standard error, and no action
executor runs: no List, Test or Extract marker and no handler extraction
call appears in the trace. -/
theorem c9_empty_archive (a : Args) (e : Env) (input : String) (rest : List String)
    (h1 : a.testProgress = false) (h2 : a.positional = input :: rest)
    (h3 : e.fileExists = true) (h4 : e.isFile = true) (h5 : e.openOk = true)
    (h6 : e.handlerOk = true) (h7 : e.recordCount = 0) :
    (mainRun a e).1 = 1
  ∧ errLine "Archive contains no records" ∈ (mainRun a e).2
  ∧ Effect.listAction ∉ (mainRun a e).2
  ∧ Effect.testAction ∉ (mainRun a e).2
  ∧ Effect.extractAction ∉ (mainRun a e).2
  ∧ ∀ dest, Effect.unpack dest ∉ (mainRun a e).2 := by
  simp [mainRun, h1, h2, h3, h4, h5, h6, h7, errLine]

/-- Witness for `c9_empty_archive` at a concrete invocation whose
enumeration yields zero records. -/
theorem c9_witness :
    ((Args.mk false ["/a/b/x.zip"] false false false "").testProgress = false
      ∧ (Args.mk false ["/a/b/x.zip"] false false false "").positional = "/a/b/x.zip" :: []
      ∧ (Env.mk true true true true 9 "zip" 0 true 0 "/tmp" 42).fileExists = true
      ∧ (Env.mk true true true true 9 "zip" 0 true 0 "/tmp" 42).isFile = true
      ∧ (Env.mk true true true true 9 "zip" 0 true 0 "/tmp" 42).openOk = true
      ∧ (Env.mk true true true true 9 "zip" 0 true 0 "/tmp" 42).handlerOk = true
      ∧ (Env.mk true true true true 9 "zip" 0 true 0 "/tmp" 42).recordCount = 0)
  ∧ ((mainRun (Args.mk false ["/a/b/x.zip"] false false false "")
        (Env.mk true true true true 9 "zip" 0 true 0 "/tmp" 42)).1 = 1
    ∧ errLine "Archive contains no records" ∈
        (mainRun (Args.mk false ["/a/b/x.zip"] false false false "")
          (Env.mk true true true true 9 "zip" 0 true 0 "/tmp" 42)).2
    ∧ Effect.listAction ∉ (mainRun (Args.mk false ["/a/b/x.zip"] false false false "")
        (Env.mk true true true true 9 "zip" 0 true 0 "/tmp" 42)).2
    ∧ Effect.testAction ∉ (mainRun (Args.mk false ["/a/b/x.zip"] false false false "")
        (Env.mk true true true true 9 "zip" 0 true 0 "/tmp" 42)).2
    ∧ Effect.extractAction ∉ (mainRun (Args.mk false ["/a/b/x.zip"] false false false "")
        (Env.mk true true true true 9 "zip" 0 true 0 "/tmp" 42)).2
    ∧ ∀ dest, Effect.unpack dest ∉ (mainRun (Args.mk false ["/a/b/x.zip"] false false false "")
        (Env.mk true true true true 9 "zip" 0 true 0 "/tmp" 42)).2) :=
  ⟨⟨by decide, by decide, by decide, by decide, by decide, by decide, by decide⟩,
    c9_empty_archive (Args.mk false ["/a/b/x.zip"] false false false "")
      (Env.mk true true true true 9 "zip" 0 true 0 "/tmp" 42) "/a/b/x.zip" []
      (by decide) (by decide) (by decide) (by decide) (by decide) (by decide) (by decide)⟩

/-- C10: once an invocation reaches the action dispatch, exactly one action
executor runs, with precedence List, then Test, then Extract; Extract also
runs when no action flag is set at all. -/
theorem c10_one_action (a : Args) (e : Env) (input : String) (rest : List String)
    (h1 : a.testProgress = false) (h2 : a.positional = input :: rest)
    (h3 : e.fileExists = true) (h4 : e.isFile = true) (h5 : e.openOk = true)
    (h6 : e.handlerOk = true) (h7 : e.recordCount ≠ 0) :
    ((mainRun a e).2.filter isActionEffect).length = 1
  ∧ (a.listSet = true → (mainRun a e).2.filter isActionEffect = [Effect.listAction])
  ∧ (a.listSet = false → a.testSet = true →
      (mainRun a e).2.filter isActionEffect = [Effect.testAction])
  ∧ (a.listSet = false → a.testSet = false →
      (mainRun a e).2.filter isActionEffect = [Effect.extractAction]) := by
  cases hl : a.listSet <;> cases ht : a.testSet <;> cases hx : a.extractSet <;>
    cases hu : e.unpackOk <;> rcases Nat.eq_zero_or_pos e.topFiles with hf | hf <;>
    simp [mainRun, testBranch, extractBranch, isActionEffect, errLine,
      h1, h2, h3, h4, h5, h6, h7, hl, ht, hx, hu, hf, Nat.pos_iff_ne_zero]

/-- Witness for `c10_one_action`: with no action flag set, only the Extract
executor runs. -/
theorem c10_witness :
    ((Args.mk false ["/a/b/x.zip"] false false false "").testProgress = false
      ∧ (Args.mk false ["/a/b/x.zip"] false false false "").positional = "/a/b/x.zip" :: []
      ∧ (Env.mk true true true true 9 "zip" 3 true 1 "/tmp" 42).fileExists = true
      ∧ (Env.mk true true true true 9 "zip" 3 true 1 "/tmp" 42).isFile = true
      ∧ (Env.mk true true true true 9 "zip" 3 true 1 "/tmp" 42).openOk = true
      ∧ (Env.mk true true true true 9 "zip" 3 true 1 "/tmp" 42).handlerOk = true
      ∧ (Env.mk true true true true 9 "zip" 3 true 1 "/tmp" 42).recordCount ≠ 0)
  ∧ (((mainRun (Args.mk false ["/a/b/x.zip"] false false false "")
        (Env.mk true true true true 9 "zip" 3 true 1 "/tmp" 42)).2.filter isActionEffect).length = 1
    ∧ ((Args.mk false ["/a/b/x.zip"] false false false "").listSet = true →
        (mainRun (Args.mk false ["/a/b/x.zip"] false false false "")
          (Env.mk true true true true 9 "zip" 3 true 1 "/tmp" 42)).2.filter isActionEffect =
          [Effect.listAction])
    ∧ ((Args.mk false ["/a/b/x.zip"] false false false "").listSet = false →
        (Args.mk false ["/a/b/x.zip"] false false false "").testSet = true →
        (mainRun (Args.mk false ["/a/b/x.zip"] false false false "")
          (Env.mk true true true true 9 "zip" 3 true 1 "/tmp" 42)).2.filter isActionEffect =
          [Effect.testAction])
    ∧ ((Args.mk false ["/a/b/x.zip"] false false false "").listSet = false →
        (Args.mk false ["/a/b/x.zip"] false false false "").testSet = false →
        (mainRun (Args.mk false ["/a/b/x.zip"] false false false "")
          (Env.mk true true true true 9 "zip" 3 true 1 "/tmp" 42)).2.filter isActionEffect =
          [Effect.extractAction])) :=
  ⟨⟨by decide, by decide, by decide, by decide, by decide, by decide, by decide⟩,
    c10_one_action (Args.mk false ["/a/b/x.zip"] false false false "")
      (Env.mk true true true true 9 "zip" 3 true 1 "/tmp" 42) "/a/b/x.zip" []
      (by decide) (by decide) (by decide) (by decide) (by decide) (by decide) (by decide)⟩

theorem timesMonoB_weaken (l : List (Nat × Bool)) : ∀ t t' : Nat, t' ≤ t →
    timesMonoB t l = true → timesMonoB t' l = true := by
  intro t t' h hm
  cases l with
  | nil => rfl
  | cons e es =>
    simp [timesMonoB] at hm ⊢
    exact ⟨le_trans h hm.1, hm.2⟩

theorem runThrottle_props (m : Nat) (l : List (Nat × Bool)) : ∀ last : Nat,
    timesMonoB last l = true →
    gapsB m last (runThrottle m last l) = true
  ∧ timesMonoB last (runThrottle m last l) = true := by
  induction l with
  | nil => intro last _; exact ⟨rfl, rfl⟩
  | cons e es ih =>
    intro last hm
    simp [timesMonoB] at hm
    by_cases hc : (e.2 || decide (m ≤ e.1 - last)) = true
    · have ihe := ih e.1 hm.2
      rw [runThrottle, if_pos hc]
      constructor
      · show ((e.2 || decide (last + m ≤ e.1)) && gapsB m e.1 (runThrottle m e.1 es)) = true
        simp only [Bool.and_eq_true, Bool.or_eq_true] at hc ⊢
        refine ⟨?_, ihe.1⟩
        rcases hc with hfin | hgap
        · exact Or.inl hfin
        · right
          simp at hgap ⊢
          omega
      · show (decide (last ≤ e.1) && timesMonoB e.1 (runThrottle m e.1 es)) = true
        simp [hm.1, ihe.2]
    · rw [runThrottle, if_neg hc]
      exact ih last (timesMonoB_weaken es e.1 last hm.1 hm.2)

theorem chainGapB_head_mono (m : Nat) (xs : List Nat) (x x' : Nat) (h : x' ≤ x)
    (hc : chainGapB m (x :: xs) = true) : chainGapB m (x' :: xs) = true := by
  cases xs with
  | nil => rfl
  | cons y ys =>
    simp [chainGapB] at hc ⊢
    exact ⟨by omega, hc.2⟩

theorem chainGapB_tail (m : Nat) (x : Nat) (xs : List Nat)
    (hc : chainGapB m (x :: xs) = true) : chainGapB m xs = true := by
  cases xs with
  | nil => rfl
  | cons y ys =>
    simp [chainGapB] at hc
    exact hc.2

theorem chain_of_gaps (m : Nat) (l : List (Nat × Bool)) : ∀ last : Nat,
    gapsB m last l = true → timesMonoB last l = true →
    chainGapB m (last :: (nonFinalFires l).map Prod.fst) = true := by
  induction l with
  | nil => intro last _ _; rfl
  | cons e es ih =>
    intro last hg hm
    simp [gapsB] at hg
    simp [timesMonoB] at hm
    by_cases hfin : e.2 = true
    · have hnl : nonFinalFires (e :: es) = nonFinalFires es := by
        simp [nonFinalFires, List.filter, hfin]
      rw [hnl]
      exact chainGapB_head_mono m _ e.1 last hm.1 (ih e.1 hg.2 hm.2)
    · have hnl : nonFinalFires (e :: es) = e :: nonFinalFires es := by
        simp [nonFinalFires, List.filter, hfin]
      rw [hnl]
      show (decide (last + m ≤ e.1) && chainGapB m (e.1 :: (nonFinalFires es).map Prod.fst)) = true
      rcases hg.1 with h1 | h1
      · exact absurd h1 hfin
      · simp only [Bool.and_eq_true]
        exact ⟨by simpa using h1, ih e.1 hg.2 hm.2⟩

theorem chain_filter_cons (m : Nat) (p : Nat → Bool) (xs : List Nat) : ∀ x : Nat,
    chainGapB m (x :: xs) = true → chainGapB m (x :: xs.filter p) = true := by
  induction xs with
  | nil => intro x _; rfl
  | cons y rest ih =>
    intro x hc
    simp [chainGapB] at hc
    by_cases hp : p y = true
    · rw [List.filter_cons_of_pos hp]
      show (decide (x + m ≤ y) && chainGapB m (y :: rest.filter p)) = true
      simp only [Bool.and_eq_true]
      exact ⟨by simpa using hc.1, ih y hc.2⟩
    · rw [List.filter_cons_of_neg (by simpa using hp)]
      exact ih x (chainGapB_head_mono m rest y x (by omega) hc.2)

theorem chain_filter (m : Nat) (p : Nat → Bool) (xs : List Nat)
    (hc : chainGapB m xs = true) : chainGapB m (xs.filter p) = true := by
  cases xs with
  | nil => rfl
  | cons x rest =>
    by_cases hp : p x = true
    · rw [List.filter_cons_of_pos hp]
      exact chain_filter_cons m p rest x hc
    · rw [List.filter_cons_of_neg (by simpa using hp)]
      exact chain_filter m p rest (chainGapB_tail m x rest hc)

theorem chain_head_le (m : Nat) (xs : List Nat) : ∀ x : Nat,
    chainGapB m (x :: xs) = true → ∀ z ∈ x :: xs, x ≤ z := by
  induction xs with
  | nil => intro x _ z hz; simp at hz; omega
  | cons y rest ih =>
    intro x hc z hz
    simp [chainGapB] at hc
    rcases List.mem_cons.mp hz with h | h
    · omega
    · have hyz := ih y hc.2 z h
      have hxy : x + m ≤ y := by simpa using hc.1
      omega

theorem chain_bound (m B : Nat) (hm : 0 < m) (xs : List Nat) : ∀ t : Nat,
    chainGapB m xs = true → (∀ x ∈ xs, t ≤ x ∧ x ≤ B) →
    xs.length ≤ (B - t) / m + 1 := by
  induction xs with
  | nil => intro t _ _; simp
  | cons x rest ih =>
    intro t hc hb
    cases rest with
    | nil => simp
    | cons y rest2 =>
      simp [chainGapB] at hc
      have hxy : x + m ≤ y := by simpa using hc.1
      have hmem : ∀ z ∈ y :: rest2, y ≤ z ∧ z ≤ B := by
        intro z hz
        exact ⟨chain_head_le m rest2 y hc.2 z hz, (hb z (List.mem_cons_of_mem x hz)).2⟩
      have hlen := ih y hc.2 hmem
      have hx := hb x (by simp)
      have hy := hb y (by simp)
      have hstep : (B - y) / m + 1 ≤ (B - t) / m := by
        have h1 : (B - y) + m ≤ B - t := by omega
        calc (B - y) / m + 1 = ((B - y) + m) / m := (Nat.add_div_right _ hm).symm
          _ ≤ (B - t) / m := Nat.div_le_div_right h1
      simp only [List.length_cons] at hlen ⊢
      omega

theorem filter_fst_length (q : Nat → Bool) (l : List (Nat × Bool)) :
    (l.filter fun e => q e.1).length = ((l.map Prod.fst).filter q).length := by
  induction l with
  | nil => rfl
  | cons e es ih =>
    cases hq : q e.1 with
    | true => simp [List.filter_cons, hq, ih]
    | false => simp [List.filter_cons, hq, ih]

theorem windowCount_eq (t : Nat) (l : List (Nat × Bool)) :
    windowCount t l =
      ((l.map Prod.fst).filter fun x => decide (t ≤ x) && decide (x < t + 1000)).length :=
  filter_fst_length (fun x => decide (t ≤ x) && decide (x < t + 1000)) l

/-- C3 counterexample to the claimed rate bound `1000/minInterval`: with
`minInterval = 30` and updates every 30 ms, the 1-second window
`[30, 1030)` holds 34 fired non-final updates (and 35 fired updates
counting the final one), exceeding both `1000/30 = 33` and `1000/30 + 1`,
even though every fired pair respects the 30 ms throttle. -/
theorem c3_counterexample :
    timesMonoB 0 c3Trace = true
  ∧ windowCount 30 (nonFinalFires (runThrottle 30 0 c3Trace)) = 34
  ∧ windowCount 30 (runThrottle 30 0 c3Trace) = 35
  ∧ 1000 / 30 = 33
  ∧ ¬ windowCount 30 (nonFinalFires (runThrottle 30 0 c3Trace)) ≤ 1000 / 30
  ∧ ¬ windowCount 30 (runThrottle 30 0 c3Trace) ≤ 1000 / 30 + 1 := by decide

/-- C3 (amended): a non-final update arriving less than `minInterval` after
the last fired callback is skipped; a final update is never skipped; and
for every time-ordered update trace, any 1-second window `[t, t + 1000)`
holds at most `⌈1000/minInterval⌉ = 999/minInterval + 1` fired non-final
updates (final updates fire unconditionally on top of that).  The
original bound `1000/minInterval` fails whenever `minInterval` does not
divide 1000 (`c3_counterexample`). -/
theorem c3_throttle (m : Nat) (hm : 0 < m) (last now t : Nat)
    (evs rest : List (Nat × Bool)) :
    (now - last < m → runThrottle m last ((now, false) :: rest) = runThrottle m last rest)
  ∧ (runThrottle m last ((now, true) :: rest) = (now, true) :: runThrottle m now rest)
  ∧ (timesMonoB last evs = true →
      windowCount t (nonFinalFires (runThrottle m last evs)) ≤ 999 / m + 1) := by
  refine ⟨?_, ?_, ?_⟩
  · intro h
    simp [runThrottle, Nat.not_le.mpr h]
  · simp [runThrottle]
  · intro hmono
    have props := runThrottle_props m evs last hmono
    have c0 := chain_of_gaps m (runThrottle m last evs) last props.1 props.2
    have c1 := chainGapB_tail m last _ c0
    have c2 := chain_filter m (fun x => decide (t ≤ x) && decide (x < t + 1000)) _ c1
    rw [windowCount_eq]
    have hb := chain_bound m (t + 999) hm _ t c2 ?_
    · calc _ ≤ (t + 999 - t) / m + 1 := hb
        _ = 999 / m + 1 := by congr 2; omega
    · intro x hx
      have hmem := List.of_mem_filter hx
      simp at hmem
      omega

/-- Witness for `c3_throttle` at `minInterval = 30` and a two-update
trace. -/
theorem c3_witness :
    0 < 30
  ∧ ((10 - 0 < 30 → runThrottle 30 0 ((10, false) :: []) = runThrottle 30 0 [])
    ∧ (runThrottle 30 0 ((10, true) :: []) = (10, true) :: runThrottle 30 10 [])
    ∧ (timesMonoB 0 [(5, false), (40, false)] = true →
        windowCount 0 (nonFinalFires (runThrottle 30 0 [(5, false), (40, false)])) ≤
          999 / 30 + 1)) :=
  ⟨by decide, c3_throttle 30 (by decide) 0 10 0 [(5, false), (40, false)] []⟩

end XFU
